import Mathlib

/-!
Shallow embedding of `src/todo-config.ts` from ember-template-lint-todo-utils.

The source resolves a two-field configuration record (`DaysToDecay`, with
optional `warn` and `error` day counts) by merging three sources with
`Object.assign` — the manifest (`package.json` at `baseDir`), two environment
variables, and a directly supplied override — applying a default when the
merge is empty and the manifest was absent, and validating `warn < error`.

Modelling choices, each traceable to the source:
- A JavaScript field slot is `Option JSVal`: `none` means the key is absent
  from the object; `some v` means the key is present with value `v`.
  `JSVal` distinguishes a number (`num`), the value `undefined` (`undef`)
  — a key CAN be present with value `undefined`, and `Object.assign` copies
  such keys and `Object.keys` counts them — and any other non-number value
  (`other`), which the manifest (untyped `require` result) can supply.
  JavaScript numbers are modelled as `Int`: every value the code lets
  through its `Number.isInteger` / `typeof x === 'number'` checks on the
  tested paths is an integer, and the spec's data model declares the
  fields integer-valued.
- The manifest read (`getFromPackageJson`) swallows all read and parse
  failures with `try/catch` and returns `pkg?.lintTodo?.daysToDecay`; the
  observable state for a given `baseDir` is therefore exactly an
  `Option DaysToDecay` (`none` for a missing, unreadable or unparseable
  manifest, or an absent nested path).
- The environment is the pair of optional strings for `TODO_DAYS_TO_WARN`
  and `TODO_DAYS_TO_ERROR`. `getEnvVar` tests truthiness (`undefined` and
  the empty string are falsy) and then runs `Number.parseInt(value, 10)`;
  the caller keeps the result only when `Number.isInteger` holds, so a
  failed parse (`NaN`) and an unset variable collapse to `none`.
- `throw new Error(message)` becomes `Except.error message` with the exact
  interpolated message string.
-/

inductive JSVal where
  | num : Int → JSVal
  | undef : JSVal
  | other : JSVal
deriving DecidableEq, Repr

/-- The `DaysToDecay` record: a JavaScript object with the two known keys
`warn` and `error`, each key either absent (`none`) or present with a
value (`some v`). -/
structure DaysToDecay where
  warn : Option JSVal
  error : Option JSVal
deriving DecidableEq, Repr

/-- The empty object literal `\x7b\x7d`. -/
def emptyConfig : DaysToDecay := ⟨none, none⟩

/-- The process environment restricted to the two variables the code reads. -/
structure EnvState where
  todo_days_to_warn : Option String
  todo_days_to_error : Option String
deriving DecidableEq, Repr

/-- The empty environment: neither variable set. -/
def emptyEnv : EnvState := ⟨none, none⟩

/-- `Object.keys(c).length` for a two-slot object: keys present with value
`undefined` are counted. -/
def numKeys (c : DaysToDecay) : Nat :=
  (if c.warn.isSome then 1 else 0) + (if c.error.isSome then 1 else 0)

/-- One field of an `Object.assign` step: a key present in the later source
(whatever its value, `undefined` included) overwrites; an absent key is
skipped. -/
def mergeField (earlier later : Option JSVal) : Option JSVal :=
  match later with
  | some v => some v
  | none => earlier

/-- `Object.assign(target, source)` restricted to the two known keys. -/
def objAssign (target source : DaysToDecay) : DaysToDecay :=
  { warn := mergeField target.warn source.warn,
    error := mergeField target.error source.error }

/-- `Number.parseInt(s, 10)`: skip leading whitespace, an optional sign,
then take the maximal run of base-10 digits; `none` models `NaN` (no
digits found). -/
def digitsToNat (ds : List Char) : Nat :=
  ds.foldl (fun acc c => acc * 10 + (c.toNat - 48)) 0

def parseInt10 (s : String) : Option Int :=
  match s.toList.dropWhile Char.isWhitespace with
  | '-' :: rest =>
      let ds := rest.takeWhile Char.isDigit
      if ds.isEmpty then none else some (-(digitsToNat ds : Int))
  | '+' :: rest =>
      let ds := rest.takeWhile Char.isDigit
      if ds.isEmpty then none else some ((digitsToNat ds : Int))
  | rest =>
      let ds := rest.takeWhile Char.isDigit
      if ds.isEmpty then none else some ((digitsToNat ds : Int))

/-- `getEnvVar(name)`: `if (process.env[name])` — unset and empty-string
values are falsy — then `Number.parseInt(value, 10)`. The result is kept
by the caller only under `Number.isInteger`, so `NaN` is `none` here. -/
def getEnvVar (v : Option String) : Option Int :=
  match v with
  | some s => if s = "" then none else parseInt10 s
  | none => none

/-- `getFromEnvVars()`: include `warn` and `error` exactly when the
corresponding variable yields an integer. -/
def getFromEnvVars (env : EnvState) : DaysToDecay :=
  { warn := (getEnvVar env.todo_days_to_warn).map JSVal.num,
    error := (getEnvVar env.todo_days_to_error).map JSVal.num }

/-- `getFromPackageJson(basePath)`: `require` the manifest, swallowing
failures, and return `pkg?.lintTodo?.daysToDecay`. The manifest state for
the given base directory is already that optional value. -/
def getFromPackageJson (manifest : Option DaysToDecay) : Option DaysToDecay :=
  manifest

instance {ε α : Type} [DecidableEq ε] [DecidableEq α] : DecidableEq (Except ε α) := fun x y =>
  match x, y with
  | Except.ok a, Except.ok b =>
      if h : a = b then Decidable.isTrue (by rw [h])
      else Decidable.isFalse (fun hc => h (Except.ok.inj hc))
  | Except.error a, Except.error b =>
      if h : a = b then Decidable.isTrue (by rw [h])
      else Decidable.isFalse (fun hc => h (Except.error.inj hc))
  | Except.ok _, Except.error _ => Decidable.isFalse (fun hc => Except.noConfusion hc)
  | Except.error _, Except.ok _ => Decidable.isFalse (fun hc => Except.noConfusion hc)

/-- The interpolated message of the `throw new Error(...)` in
`getTodoConfig`. -/
def errMessage (w er : Int) : String :=
  "The provided todo configuration contains invalid values. The `warn` value (" ++
    toString w ++ ") must be less than the `error` value (" ++ toString er ++ ")."

/-- Line 38: `Object.assign(\x7b\x7d, daysToDecayPackageConfig, daysToDecayEnvVars,
todoConfig)`; an `undefined` source (manifest absent) is skipped by
`Object.assign`. -/
def mergedBeforeDefault (manifest : Option DaysToDecay) (env : EnvState)
    (todoConfig : DaysToDecay) : DaysToDecay :=
  let daysToDecayPackageConfig := getFromPackageJson manifest
  let daysToDecayEnvVars := getFromEnvVars env
  objAssign (objAssign (objAssign emptyConfig (daysToDecayPackageConfig.getD emptyConfig))
    daysToDecayEnvVars) todoConfig

/-- The default applied at lines 42-47. -/
def defaultDaysToDecay : DaysToDecay := ⟨some (JSVal.num 30), some (JSVal.num 60)⟩

/-- Lines 42-47: replace the merge by the default exactly when
`Object.keys(mergedConfig).length === 0` and
`typeof daysToDecayPackageConfig === 'undefined'`. -/
def mergedWithDefault (manifest : Option DaysToDecay) (env : EnvState)
    (todoConfig : DaysToDecay) : DaysToDecay :=
  let mc := mergedBeforeDefault manifest env todoConfig
  if numKeys mc = 0 ∧ getFromPackageJson manifest = none then defaultDaysToDecay else mc

/-- Lines 49-57: `typeof mergedConfig.warn === 'number' &&
typeof mergedConfig.error === 'number' && mergedConfig.warn >= mergedConfig.error`
throws; every other shape falls through to `return mergedConfig`. -/
def validateConfig (mergedConfig : DaysToDecay) : Except String DaysToDecay :=
  match mergedConfig.warn, mergedConfig.error with
  | some (JSVal.num w), some (JSVal.num er) =>
      if er ≤ w then Except.error (errMessage w er) else Except.ok mergedConfig
  | _, _ => Except.ok mergedConfig

/-- `getTodoConfig(baseDir, todoConfig)`: merge, default, then validate —
throw when both fields are present as numbers with `warn >= error`,
otherwise return the merged record. -/
def getTodoConfig (manifest : Option DaysToDecay) (env : EnvState)
    (todoConfig : DaysToDecay) : Except String DaysToDecay :=
  validateConfig (mergedWithDefault manifest env todoConfig)

/-! ## Substring containment (for the error-message claim) -/

/-- `leadsWith n h`: `n` matches the start of `h`. -/
def leadsWith : List Char → List Char → Bool
  | [], _ => true
  | _ :: _, [] => false
  | c :: cs, d :: ds => c = d && leadsWith cs ds

/-- `containsSub n h`: `n` occurs contiguously somewhere inside `h`. -/
def containsSub (needle : List Char) : List Char → Bool
  | [] => needle.isEmpty
  | c :: t => leadsWith needle (c :: t) || containsSub needle t

/-! ## Heap model for the frame claim -/

/-- A store of config objects; an address is an index, allocation appends. -/
structure Heap where
  cells : List DaysToDecay
deriving DecidableEq, Repr

def Heap.read (h : Heap) (a : Nat) : DaysToDecay := h.cells.getD a emptyConfig

def Heap.write (h : Heap) (a : Nat) (v : DaysToDecay) : Heap := ⟨h.cells.set a v⟩

def Heap.alloc (h : Heap) (v : DaysToDecay) : Heap × Nat := (⟨h.cells ++ [v]⟩, h.cells.length)

/-- Mutation-explicit rendering of `getTodoConfig`: the caller's override
record lives at `todoAddr`; the `Object.assign` target is the freshly
allocated object literal `\x7b\x7d` of line 38, the only cell ever written;
the default branch allocates a new object literal rather than writing any
existing cell; the returned value is the address of the returned record. -/
def getTodoConfigHeap (h : Heap) (manifest : Option DaysToDecay) (env : EnvState)
    (todoAddr : Nat) : Heap × Except String Nat :=
  let daysToDecayPackageConfig := getFromPackageJson manifest
  let daysToDecayEnvVars := getFromEnvVars env
  let allocated := h.alloc emptyConfig
  let h1 := allocated.1
  let target := allocated.2
  let todoConfig := h1.read todoAddr
  let merged := objAssign (objAssign (objAssign emptyConfig
    (daysToDecayPackageConfig.getD emptyConfig)) daysToDecayEnvVars) todoConfig
  let h2 := h1.write target merged
  if numKeys (h2.read target) = 0 ∧ daysToDecayPackageConfig = none then
    let allocated2 := h2.alloc defaultDaysToDecay
    (allocated2.1, (validateConfig (allocated2.1.read allocated2.2)).map (fun _ => allocated2.2))
  else
    (h2, (validateConfig (h2.read target)).map (fun _ => target))

/-! ## Helper lemmas -/

theorem mergeField_none_left : ∀ x : Option JSVal, mergeField none x = x := by
  intro x
  cases x <;> rfl

theorem mergedBeforeDefault_fields (m : Option DaysToDecay) (e : EnvState) (o : DaysToDecay) :
    mergedBeforeDefault m e o =
      { warn := mergeField (mergeField ((getFromPackageJson m).getD emptyConfig).warn
          (getFromEnvVars e).warn) o.warn,
        error := mergeField (mergeField ((getFromPackageJson m).getD emptyConfig).error
          (getFromEnvVars e).error) o.error } := by
  simp [mergedBeforeDefault, objAssign, emptyConfig, mergeField_none_left]

/-! ## Claim theorems -/

/-- Claim C1: for every manifest state, environment state and override
config, the merge performed before default application (line 38) is the
field-by-field merge of manifest-partial, then environment-partial, then
`todoConfig`, each later source's present key overwriting the earlier
one's; and on the spec's precedence example — manifest
`\x7bwarn: 5, error: 10\x7d`, environment `TODO_DAYS_TO_WARN=7`, override
`\x7berror: 20\x7d` — the resolver returns `\x7bwarn: 7, error: 20\x7d`. -/
theorem c1_merge_precedence :
    (∀ (m : Option DaysToDecay) (e : EnvState) (o : DaysToDecay),
      mergedBeforeDefault m e o =
        { warn := mergeField (mergeField ((getFromPackageJson m).getD emptyConfig).warn
            (getFromEnvVars e).warn) o.warn,
          error := mergeField (mergeField ((getFromPackageJson m).getD emptyConfig).error
            (getFromEnvVars e).error) o.error }) ∧
    getTodoConfig (some ⟨some (JSVal.num 5), some (JSVal.num 10)⟩)
        ⟨some "7", none⟩ ⟨none, some (JSVal.num 20)⟩ =
      Except.ok ⟨some (JSVal.num 7), some (JSVal.num 20)⟩ :=
  ⟨mergedBeforeDefault_fields, by decide⟩

/-- Claim C2: the merged result is replaced by the default
`\x7bwarn: 30, error: 60\x7d` exactly when it has zero keys set and the
manifest source was absent; a present-but-empty manifest suppresses the
default (the resolver returns the empty record), and with no source
configured at all the default is returned. -/
theorem c2_default_application :
    (∀ (m : Option DaysToDecay) (e : EnvState) (o : DaysToDecay),
      mergedWithDefault m e o =
        if numKeys (mergedBeforeDefault m e o) = 0 ∧ m = none
        then defaultDaysToDecay else mergedBeforeDefault m e o) ∧
    getTodoConfig (some emptyConfig) emptyEnv emptyConfig = Except.ok emptyConfig ∧
    getTodoConfig none emptyEnv emptyConfig = Except.ok defaultDaysToDecay :=
  ⟨fun m e o => rfl, by decide, by decide⟩

theorem leadsWith_self_append (n t : List Char) : leadsWith n (n ++ t) = true := by
  induction n with
  | nil => rfl
  | cons c cs ih => simp [leadsWith, ih]

theorem containsSub_nil_needle (h : List Char) : containsSub [] h = true := by
  cases h with
  | nil => rfl
  | cons c t => simp [containsSub, leadsWith]

theorem containsSub_self_append (n t : List Char) : containsSub n (n ++ t) = true := by
  cases n with
  | nil => exact containsSub_nil_needle t
  | cons c cs =>
    show (leadsWith (c :: cs) ((c :: cs) ++ t) || containsSub (c :: cs) (cs ++ t)) = true
    rw [leadsWith_self_append]
    rfl

theorem containsSub_cons (n : List Char) (c : Char) (t : List Char)
    (h : containsSub n t = true) : containsSub n (c :: t) = true := by
  simp [containsSub, h]

theorem containsSub_append_left (n pre hay : List Char) (h : containsSub n hay = true) :
    containsSub n (pre ++ hay) = true := by
  induction pre with
  | nil => exact h
  | cons c cs ih => exact containsSub_cons n c (cs ++ hay) ih

/-- The error message decomposes around the two interpolated values. -/
theorem errMessage_data (w er : Int) :
    (errMessage w er).data =
      ("The provided todo configuration contains invalid values. The `warn` value (").data ++
        ((toString w).data ++ ((") must be less than the `error` value (").data ++
          ((toString er).data ++ (").").data))) := by
  simp [errMessage, String.data_append]

theorem errMessage_contains_warn (w er : Int) :
    containsSub (toString w).data (errMessage w er).data = true := by
  rw [errMessage_data]
  exact containsSub_append_left _ _ _ (containsSub_self_append _ _)

theorem errMessage_contains_error (w er : Int) :
    containsSub (toString er).data (errMessage w er).data = true := by
  rw [errMessage_data]
  exact containsSub_append_left _ _ _ (containsSub_append_left _ _ _
    (containsSub_append_left _ _ _ (containsSub_self_append _ _)))

/-! ## Case analysis of the validation step -/

theorem validateConfig_cases (mc : DaysToDecay) :
    (∃ w er : Int, mc.warn = some (JSVal.num w) ∧ mc.error = some (JSVal.num er) ∧ er ≤ w ∧
      validateConfig mc = Except.error (errMessage w er)) ∨
    (validateConfig mc = Except.ok mc ∧
      ∀ w er : Int, mc.warn = some (JSVal.num w) → mc.error = some (JSVal.num er) → w < er) := by
  obtain ⟨ws, es⟩ := mc
  rcases ws with _ | (w | _ | _) <;> rcases es with _ | (er | _ | _)
  all_goals try (right; exact ⟨rfl, fun w2 er2 h1 h2 => by simp_all⟩)
  by_cases hle : er ≤ w
  · exact Or.inl ⟨w, er, rfl, rfl, hle, by simp [validateConfig, hle]⟩
  · refine Or.inr ⟨by simp [validateConfig, hle], fun w2 er2 h1 h2 => ?_⟩
    simp only [Option.some.injEq, JSVal.num.injEq] at h1 h2
    omega

theorem getTodoConfig_cases (m : Option DaysToDecay) (e : EnvState) (o : DaysToDecay) :
    (∃ w er : Int, (mergedWithDefault m e o).warn = some (JSVal.num w) ∧
      (mergedWithDefault m e o).error = some (JSVal.num er) ∧ er ≤ w ∧
      getTodoConfig m e o = Except.error (errMessage w er)) ∨
    (getTodoConfig m e o = Except.ok (mergedWithDefault m e o) ∧
      ∀ w er : Int, (mergedWithDefault m e o).warn = some (JSVal.num w) →
        (mergedWithDefault m e o).error = some (JSVal.num er) → w < er) :=
  validateConfig_cases (mergedWithDefault m e o)

theorem envField_num_iff (v : Option String) (n : Int) :
    (getEnvVar v).map JSVal.num = some (JSVal.num n) ↔
      ∃ s, v = some s ∧ parseInt10 s = some n := by
  cases v with
  | none => simp [getEnvVar]
  | some s =>
    by_cases h : s = ""
    · subst h
      simp [getEnvVar, show parseInt10 "" = none from rfl]
    · simp [getEnvVar, h]

theorem envField_isSome_iff (v : Option String) :
    ((getEnvVar v).map JSVal.num).isSome = true ↔
      ∃ s n, v = some s ∧ parseInt10 s = some n := by
  cases v with
  | none => simp [getEnvVar]
  | some s =>
    by_cases h : s = ""
    · subst h
      simp [getEnvVar, show parseInt10 "" = none from rfl]
    · simp [getEnvVar, h, Option.isSome_iff_exists]

/-- Claim C3: resolution fails exactly when both `warn` and `error` are
present as numbers in the final merged-and-defaulted record with
`warn >= error`; the raised error is the interpolated message, which
contains the decimal rendering of both offending values. Every other
anomalous input was already collapsed to an absent field by the lookup
helpers, so resolution returns normally there. -/
theorem c3_error_exactly_on_bad_ordering :
    ∀ (m : Option DaysToDecay) (e : EnvState) (o : DaysToDecay),
      ((∃ s, getTodoConfig m e o = Except.error s) ↔
        ∃ w er : Int, (mergedWithDefault m e o).warn = some (JSVal.num w) ∧
          (mergedWithDefault m e o).error = some (JSVal.num er) ∧ er ≤ w) ∧
      (∀ w er : Int, (mergedWithDefault m e o).warn = some (JSVal.num w) →
          (mergedWithDefault m e o).error = some (JSVal.num er) → er ≤ w →
          getTodoConfig m e o = Except.error (errMessage w er) ∧
          containsSub (toString w).data (errMessage w er).data = true ∧
          containsSub (toString er).data (errMessage w er).data = true) := by
  intro m e o
  constructor
  · constructor
    · rintro ⟨s, hs⟩
      rcases getTodoConfig_cases m e o with ⟨w, er, hw, he, hle, _⟩ | ⟨hok, _⟩
      · exact ⟨w, er, hw, he, hle⟩
      · rw [hok] at hs
        cases hs
    · rintro ⟨w, er, hw, he, hle⟩
      rcases getTodoConfig_cases m e o with ⟨w2, er2, _, _, _, herr⟩ | ⟨_, hlt⟩
      · exact ⟨_, herr⟩
      · have := hlt w er hw he
        omega
  · intro w er hw he hle
    rcases getTodoConfig_cases m e o with ⟨w2, er2, hw2, he2, hle2, herr⟩ | ⟨_, hlt⟩
    · rw [hw] at hw2
      rw [he] at he2
      simp only [Option.some.injEq, JSVal.num.injEq] at hw2 he2
      subst hw2
      subst he2
      exact ⟨herr, errMessage_contains_warn w er, errMessage_contains_error w er⟩
    · have := hlt w er hw he
      omega

/-- Claim C3 witness: override `\x7bwarn: 10, error: 5\x7d` with all other
sources absent fails with the message containing both `10` and `5`. -/
theorem c3_witness :
    getTodoConfig none emptyEnv ⟨some (JSVal.num 10), some (JSVal.num 5)⟩ =
      Except.error (errMessage 10 5) ∧
    containsSub (toString (10 : Int)).data (errMessage 10 5).data = true ∧
    containsSub (toString (5 : Int)).data (errMessage 10 5).data = true :=
  (c3_error_exactly_on_bad_ordering none emptyEnv
    ⟨some (JSVal.num 10), some (JSVal.num 5)⟩).2 10 5 (by decide) (by decide) (by decide)

/-- Claim C4: the environment partial holds `warn` (resp. `error`) exactly
when `TODO_DAYS_TO_WARN` (resp. `TODO_DAYS_TO_ERROR`) is set and its value
parses as a base-10 integer, in which case the field is that integer; a
leading-numeric-prefix string like "10x" parses to the prefix value, and a
string with no numeric prefix like "abc" leaves the field absent. -/
theorem c4_env_var_parsing :
    (∀ (env : EnvState) (n : Int),
      ((getFromEnvVars env).warn = some (JSVal.num n) ↔
        ∃ s, env.todo_days_to_warn = some s ∧ parseInt10 s = some n) ∧
      ((getFromEnvVars env).error = some (JSVal.num n) ↔
        ∃ s, env.todo_days_to_error = some s ∧ parseInt10 s = some n)) ∧
    (∀ env : EnvState,
      ((getFromEnvVars env).warn.isSome = true ↔
        ∃ s n, env.todo_days_to_warn = some s ∧ parseInt10 s = some n) ∧
      ((getFromEnvVars env).error.isSome = true ↔
        ∃ s n, env.todo_days_to_error = some s ∧ parseInt10 s = some n)) ∧
    parseInt10 "10x" = some 10 ∧ parseInt10 "abc" = none ∧ parseInt10 "15" = some 15 ∧
    getFromEnvVars ⟨some "10x", some "abc"⟩ = ⟨some (JSVal.num 10), none⟩ :=
  ⟨fun env n => ⟨envField_num_iff env.todo_days_to_warn n,
      envField_num_iff env.todo_days_to_error n⟩,
    fun env => ⟨envField_isSome_iff env.todo_days_to_warn,
      envField_isSome_iff env.todo_days_to_error⟩,
    by decide, by decide, by decide, by decide⟩

/-- Claim C5: every record the resolver returns normally satisfies the data
model invariant — whenever both fields carry numbers, `warn < error`
strictly. -/
theorem c5_returned_invariant :
    ∀ (m : Option DaysToDecay) (e : EnvState) (o r : DaysToDecay),
      getTodoConfig m e o = Except.ok r →
      ∀ w er : Int, r.warn = some (JSVal.num w) → r.error = some (JSVal.num er) → w < er := by
  intro m e o r hok w er hw he
  rcases getTodoConfig_cases m e o with ⟨w2, er2, _, _, _, herr⟩ | ⟨hok2, hlt⟩
  · rw [herr] at hok
    cases hok
  · rw [hok2] at hok
    injection hok with h
    subst h
    exact hlt w er hw he

/-- Claim C5 witness: override `\x7bwarn: 3, error: 9\x7d` is returned as-is
and satisfies `3 < 9`. -/
theorem c5_witness : (3 : Int) < 9 :=
  c5_returned_invariant none emptyEnv ⟨some (JSVal.num 3), some (JSVal.num 9)⟩
    ⟨some (JSVal.num 3), some (JSVal.num 9)⟩ (by decide) 3 9 rfl rfl

/-- Claim C6 counterexample: supplying `warn` with the explicit value
`undefined` in the override does NOT behave like not supplying it.
With every other source absent, omitting the field yields the default
`\x7bwarn: 30, error: 60\x7d`, while `\x7bwarn: undefined\x7d` suppresses the
default (its key is counted by `Object.keys`) and the key also overwrites a
manifest-supplied `warn: 5`. -/
theorem c6_counterexample :
    getTodoConfig none emptyEnv ⟨some JSVal.undef, none⟩ ≠
      getTodoConfig none emptyEnv emptyConfig ∧
    getTodoConfig (some ⟨some (JSVal.num 5), none⟩) emptyEnv ⟨some JSVal.undef, none⟩ ≠
      getTodoConfig (some ⟨some (JSVal.num 5), none⟩) emptyEnv emptyConfig := by
  decide

/-- Claim C6 (amended): a field whose KEY is absent in a later source is
skipped — it never overwrites an earlier source's field and the merge of an
absent field equals the merge with an empty later source; but a key that is
present with value `undefined` is copied like any present key: it
overwrites earlier values and counts toward `Object.keys`, so it is not
equivalent to omitting the field. -/
theorem c6_absent_key_skipped :
    (∀ (m : Option DaysToDecay) (e : EnvState) (o : DaysToDecay),
      ((mergedBeforeDefault m e o).warn =
        match o.warn with
        | some v => some v
        | none => (mergedBeforeDefault m e emptyConfig).warn) ∧
      ((mergedBeforeDefault m e o).error =
        match o.error with
        | some v => some v
        | none => (mergedBeforeDefault m e emptyConfig).error)) ∧
    getTodoConfig none emptyEnv ⟨some JSVal.undef, none⟩ =
      Except.ok ⟨some JSVal.undef, none⟩ ∧
    getTodoConfig (some ⟨some (JSVal.num 5), none⟩) emptyEnv ⟨some JSVal.undef, none⟩ =
      Except.ok ⟨some JSVal.undef, none⟩ := by
  refine ⟨fun m e o => ⟨?_, ?_⟩, by decide, by decide⟩
  · rw [mergedBeforeDefault_fields, mergedBeforeDefault_fields]
    cases o.warn <;> simp [mergeField, emptyConfig]
  · rw [mergedBeforeDefault_fields, mergedBeforeDefault_fields]
    cases o.error <;> simp [mergeField, emptyConfig]

/-- Claim C7: the resolver is deterministic — identical manifest state,
environment state and override yield identical results; the embedding is a
pure function of exactly these three observable inputs, mirroring the
absence of shared mutable state in the source. -/
theorem c7_deterministic :
    ∀ (m m2 : Option DaysToDecay) (e e2 : EnvState) (o o2 : DaysToDecay),
      m = m2 → e = e2 → o = o2 → getTodoConfig m e o = getTodoConfig m2 e2 o2 := by
  intro m m2 e e2 o o2 h1 h2 h3
  rw [h1, h2, h3]

/-- Claim C7 witness: two calls on the empty inputs agree. -/
theorem c7_witness :
    getTodoConfig none emptyEnv emptyConfig = getTodoConfig none emptyEnv emptyConfig :=
  c7_deterministic none none emptyEnv emptyEnv emptyConfig emptyConfig rfl rfl rfl

/-- Claim C8: although the declared TypeScript return type admits
`undefined`, every non-throwing run returns a defined record: the result is
always either `ok` of a record or the ordering error. -/
theorem c8_never_undefined :
    ∀ (m : Option DaysToDecay) (e : EnvState) (o : DaysToDecay),
      (∃ r : DaysToDecay, getTodoConfig m e o = Except.ok r) ∨
      (∃ w er : Int, getTodoConfig m e o = Except.error (errMessage w er)) := by
  intro m e o
  rcases getTodoConfig_cases m e o with ⟨w, er, _, _, _, herr⟩ | ⟨hok, _⟩
  · exact Or.inr ⟨w, er, herr⟩
  · exact Or.inl ⟨_, hok⟩

/-- Claim C10: whenever the default is applied (merge empty and manifest
absent), validation necessarily passes — the call returns the default
`\x7bwarn: 30, error: 60\x7d` and never raises. -/
theorem c10_default_path_never_raises :
    ∀ (m : Option DaysToDecay) (e : EnvState) (o : DaysToDecay),
      numKeys (mergedBeforeDefault m e o) = 0 → m = none →
      getTodoConfig m e o = Except.ok defaultDaysToDecay := by
  intro m e o h1 h2
  subst h2
  have hm : mergedWithDefault none e o = defaultDaysToDecay := by
    unfold mergedWithDefault
    simp [h1, getFromPackageJson]
  unfold getTodoConfig
  rw [hm]
  decide

/-- Claim C10 witness: no sources configured takes the default path and
returns the default without raising. -/
theorem c10_witness : getTodoConfig none emptyEnv emptyConfig = Except.ok defaultDaysToDecay :=
  c10_default_path_never_raises none emptyEnv emptyConfig (by decide) rfl

theorem getD_append_lt (l : List DaysToDecay) (v d : DaysToDecay) (i : Nat)
    (hi : i < l.length) : (l ++ [v]).getD i d = l.getD i d := by
  induction l generalizing i with
  | nil => simp at hi
  | cons c cs ih =>
    cases i with
    | zero => rfl
    | succ j => exact ih j (by simpa using hi)

theorem getD_append_self (l : List DaysToDecay) (v d : DaysToDecay) :
    (l ++ [v]).getD l.length d = v := by
  induction l with
  | nil => rfl
  | cons c cs ih => exact ih

theorem getD_set_append_lt (cells : List DaysToDecay) (v w d : DaysToDecay) (i : Nat)
    (hi : i < cells.length) :
    ((cells ++ [v]).set cells.length w).getD i d = cells.getD i d := by
  induction cells generalizing i with
  | nil => simp at hi
  | cons c cs ih =>
    cases i with
    | zero => rfl
    | succ j => exact ih j (by simpa using hi)

theorem getD_set_append_self (cells : List DaysToDecay) (v w d : DaysToDecay) :
    ((cells ++ [v]).set cells.length w).getD cells.length d = w := by
  induction cells with
  | nil => rfl
  | cons c cs ih => exact ih

theorem validateConfig_ok (mc r : DaysToDecay) (h : validateConfig mc = Except.ok r) :
    r = mc := by
  rcases validateConfig_cases mc with ⟨w, er, _, _, _, herr⟩ | ⟨hok, _⟩
  · rw [herr] at h
    cases h
  · rw [hok] at h
    exact (Except.ok.inj h).symm

theorem map_read_alloc (cells : List DaysToDecay) (v : DaysToDecay) :
    Except.map (fun addr => (cells ++ [v]).getD addr emptyConfig)
      (Except.map (fun _ => cells.length) (validateConfig v)) = validateConfig v := by
  rcases hv : validateConfig v with s | r
  · rfl
  · have hr : r = v := validateConfig_ok v r hv
    subst hr
    show Except.ok ((cells ++ [r]).getD cells.length emptyConfig) = Except.ok r
    rw [getD_append_self]

theorem map_read_set (cells : List DaysToDecay) (x : DaysToDecay) :
    Except.map (fun addr => ((cells ++ [emptyConfig]).set cells.length x).getD addr emptyConfig)
      (Except.map (fun _ => cells.length) (validateConfig x)) = validateConfig x := by
  rcases hv : validateConfig x with s | r
  · rfl
  · have hr : r = x := validateConfig_ok x r hv
    subst hr
    show Except.ok (((cells ++ [emptyConfig]).set cells.length r).getD cells.length emptyConfig) =
      Except.ok r
    rw [getD_set_append_self]

/-- Reading the returned address in the post-heap agrees with the pure
resolver applied to the record stored at the override address. -/
theorem getTodoConfigHeap_agrees (h : Heap) (m : Option DaysToDecay) (e : EnvState)
    (a : Nat) (ha : a < h.cells.length) :
    ((getTodoConfigHeap h m e a).2).map (fun addr => ((getTodoConfigHeap h m e a).1).read addr) =
      getTodoConfig m e (h.read a) := by
  have hread : ((h.cells ++ [emptyConfig]).getD a emptyConfig) = h.cells.getD a emptyConfig :=
    getD_append_lt h.cells emptyConfig emptyConfig a ha
  simp only [getTodoConfigHeap, Heap.read, Heap.write, Heap.alloc]
  rw [hread]
  rw [getD_set_append_self h.cells emptyConfig _ emptyConfig]
  rw [getTodoConfig, mergedWithDefault]
  split
  case isTrue hcond =>
    dsimp only
    rw [getD_append_self]
    rw [if_pos (⟨by simpa [mergedBeforeDefault] using hcond.1, hcond.2⟩ :
      numKeys (mergedBeforeDefault m e (h.cells.getD a emptyConfig)) = 0 ∧
        getFromPackageJson m = none)]
    exact map_read_alloc _ defaultDaysToDecay
  case isFalse hcond =>
    dsimp only
    rw [if_neg (fun hc => hcond
      ⟨by simpa [mergedBeforeDefault] using hc.1, hc.2⟩)]
    exact map_read_set h.cells (mergedBeforeDefault m e (h.cells.getD a emptyConfig))

theorem getD_set_append_append_lt (cells : List DaysToDecay) (v w v2 d : DaysToDecay)
    (i : Nat) (hi : i < cells.length) :
    (((cells ++ [v]).set cells.length w) ++ [v2]).getD i d = cells.getD i d := by
  induction cells generalizing i with
  | nil => simp at hi
  | cons c cs ih =>
    cases i with
    | zero => rfl
    | succ j => exact ih j (by simpa using hi)

/-- Claim C9: the resolver never mutates the caller's override record. In
the mutation-explicit model the only cell ever written is the freshly
allocated `Object.assign` target of line 38 (the default branch allocates
another fresh literal), so every pre-existing cell — the override record at
any address, and in fact every cell `i` — is unchanged after the call,
whether it returns or throws. -/
theorem c9_no_override_mutation :
    ∀ (h : Heap) (m : Option DaysToDecay) (e : EnvState) (a i : Nat),
      i < h.cells.length →
      ((getTodoConfigHeap h m e a).1).read i = h.read i := by
  intro h m e a i hi
  simp only [getTodoConfigHeap, Heap.read, Heap.write, Heap.alloc]
  split
  case isTrue hcond =>
    exact getD_set_append_append_lt h.cells emptyConfig _ defaultDaysToDecay emptyConfig i hi
  case isFalse hcond =>
    exact getD_set_append_lt h.cells emptyConfig _ emptyConfig i hi

/-- Claim C9 witness: with a one-cell heap holding the override record, the
record is unchanged by the call. -/
theorem c9_witness :
    0 < (Heap.mk [emptyConfig]).cells.length ∧
      ((getTodoConfigHeap ⟨[emptyConfig]⟩ none emptyEnv 0).1).read 0 =
        (Heap.mk [emptyConfig]).read 0 :=
  ⟨by decide, c9_no_override_mutation ⟨[emptyConfig]⟩ none emptyEnv 0 0 (by decide)⟩
